import Mathlib

/-!
Verification of the OpenAPI spec converter (cmd/openapi-spec-converter/main.go).

The development shallowly embeds the data model and the conversion functions of
the Go source: schema fragments become an inductive type, the mutating rule
functions become pure functions returning the updated fragment, and the
conversion orchestrator becomes a recursive function over the ordered dialect
enum. Machine floats carried by numeric bounds are modelled as rationals, which
is adequate because no rule performs arithmetic on them.
-/

namespace OASC

/-- Mirrors the Go enum SpecVersion (Swagger = 0, OpenAPI30 = 1, OpenAPI31 = 2). -/
inductive SpecVersion where
  | swagger
  | openAPI30
  | openAPI31
deriving DecidableEq, Repr

/-- The underlying iota value of the Go SpecVersion constant. -/
def SpecVersion.toNat : SpecVersion → Nat
  | .swagger => 0
  | .openAPI30 => 1
  | .openAPI31 => 2

/-- Mirrors libopenapi base.DynamicValue[bool, float64]: fields N (active
variant selector), A (bool variant) and B (number variant). -/
structure DynVal where
  N : Nat
  A : Bool
  B : ℚ
deriving DecidableEq, Repr

/-- DynamicValue.IsA: the bool variant is active. -/
def DynVal.isA (d : DynVal) : Bool := d.N == 0

/-- DynamicValue.IsB: the number variant is active. -/
def DynVal.isB (d : DynVal) : Bool := d.N == 1

/-- The scalar fields of libopenapi base.Schema that the conversion rules read
or write. ContentMediaType and ContentEncoding live on the low-level schema in
the source; they are modelled here as ordinary fields (the low schema is an
annotation side channel always reachable from the high schema). -/
structure SchemaData where
  type : List String
  nullable : Option Bool
  minimum : Option ℚ
  maximum : Option ℚ
  exclusiveMinimum : Option DynVal
  exclusiveMaximum : Option DynVal
  format : String
  contentMediaType : String
  contentEncoding : String
  required : List String
deriving DecidableEq, Repr

/-- A schema fragment: scalar data plus the child-bearing fields Properties,
Items (the singular schema case of the Items dynamic value), AllOf, OneOf and
AnyOf. -/
inductive Schema where
  | node (data : SchemaData) (properties : List (String × Schema))
      (items : Option Schema) (allOf oneOf anyOf : List Schema)

/-- A schema whose fields are all Go zero values, as produced by the composite
literal base.Schema{...} with omitted fields. -/
def emptySchemaData : SchemaData :=
  { type := [], nullable := none, minimum := none, maximum := none,
    exclusiveMinimum := none, exclusiveMaximum := none, format := "",
    contentMediaType := "", contentEncoding := "", required := [] }

def Schema.data : Schema → SchemaData
  | .node d _ _ _ _ _ => d

def Schema.properties : Schema → List (String × Schema)
  | .node _ ps _ _ _ _ => ps

def Schema.items : Schema → Option Schema
  | .node _ _ it _ _ _ => it

def Schema.allOf : Schema → List Schema
  | .node _ _ _ ao _ _ => ao

def Schema.oneOf : Schema → List Schema
  | .node _ _ _ _ oo _ => oo

def Schema.anyOf : Schema → List Schema
  | .node _ _ _ _ _ an => an

def Schema.type (s : Schema) : List String := s.data.type

def Schema.nullable (s : Schema) : Option Bool := s.data.nullable

def Schema.minimum (s : Schema) : Option ℚ := s.data.minimum

def Schema.maximum (s : Schema) : Option ℚ := s.data.maximum

def Schema.exclusiveMinimum (s : Schema) : Option DynVal := s.data.exclusiveMinimum

def Schema.exclusiveMaximum (s : Schema) : Option DynVal := s.data.exclusiveMaximum

def Schema.format (s : Schema) : String := s.data.format

def Schema.contentMediaType (s : Schema) : String := s.data.contentMediaType

def Schema.contentEncoding (s : Schema) : String := s.data.contentEncoding

/-- convert30NullablesTo31TypeArrays: if the nullable flag is set, fold it
into the type array (appending "null" when true) and clear the flag. -/
def convert30NullablesTo31TypeArrays : Schema → Schema
  | .node d ps it ao oo an =>
    match d.nullable with
    | some b =>
      .node { d with
          type := if b then d.type ++ ["null"] else d.type,
          nullable := none } ps it ao oo an
    | none => .node d ps it ao oo an

/-- The loop at the top of convert31TypeArraysTo30: scans the type array and
returns (whether "null" occurred, the last non-null entry, defaulting ""). -/
def typeScan (types : List String) : Bool × String :=
  types.foldl
    (fun acc value => if value = "null" then (true, acc.2) else (acc.1, value))
    (false, "")

/-- The fresh single-typed branch schema the oneOf expansion builds:
base.Schema{Type: []string{value}} with Nullable set when "null" was present. -/
def nullBranch (value : String) (nullable : Bool) : Schema :=
  .node { emptySchemaData with
      type := [value],
      nullable := if nullable then some true else none } [] none [] [] []

/-- convert31TypeArraysTo30: a 2-element type array holding "null" collapses
to the non-null type plus nullable = true; otherwise two or more entries
expand into a oneOf of single-typed branches (nullable iff "null" occurred),
clearing the type array. -/
def convert31TypeArraysTo30 : Schema → Schema
  | .node d ps it ao oo an =>
    let nullable := (typeScan d.type).1
    let nonNullType := (typeScan d.type).2
    if nullable ∧ d.type.length = 2 then
      .node { d with type := [nonNullType], nullable := some true } ps it ao oo an
    else if 2 ≤ d.type.length then
      .node { d with type := [] } ps it ao
        (d.type.filterMap
          (fun value => if value = "null" then none
                        else some (nullBranch value nullable)))
        an
    else .node d ps it ao oo an

/-- The inner closure convert30ExclusiveBoundTo31 of convert30MinMaxTo31,
acting on one (bound, exclusiveBound) pair. -/
def convert30ExclusiveBoundTo31 (bound : Option ℚ) (exclusiveBound : Option DynVal) :
    Option ℚ × Option DynVal :=
  match exclusiveBound with
  | some ev =>
    if ev.isA then
      if ev.A then
        (none,
         some (match bound with
               | some v => { ev with N := 1, B := v }
               | none => ev))
      else (bound, none)
    else (bound, some ev)
  | none => (bound, none)

/-- convert30MinMaxTo31 applies the exclusive-bound upgrade to the minimum
pair and the maximum pair. -/
def convert30MinMaxTo31 : Schema → Schema
  | .node d ps it ao oo an =>
    let pmin := convert30ExclusiveBoundTo31 d.minimum d.exclusiveMinimum
    let pmax := convert30ExclusiveBoundTo31 d.maximum d.exclusiveMaximum
    .node { d with
        minimum := pmin.1, exclusiveMinimum := pmin.2,
        maximum := pmax.1, exclusiveMaximum := pmax.2 } ps it ao oo an

/-- The inner closure convert31ExclusiveBoundTo30 of convert31MinMaxTo30. -/
def convert31ExclusiveBoundTo30 (bound : Option ℚ) (exclusiveBound : Option DynVal) :
    Option ℚ × Option DynVal :=
  match exclusiveBound with
  | some ev =>
    if ev.isB then (some ev.B, some { ev with A := true, N := 0 })
    else (bound, some ev)
  | none => (bound, none)

/-- convert31MinMaxTo30 applies the exclusive-bound downgrade to the minimum
pair and the maximum pair. -/
def convert31MinMaxTo30 : Schema → Schema
  | .node d ps it ao oo an =>
    let pmin := convert31ExclusiveBoundTo30 d.minimum d.exclusiveMinimum
    let pmax := convert31ExclusiveBoundTo30 d.maximum d.exclusiveMaximum
    .node { d with
        minimum := pmin.1, exclusiveMinimum := pmin.2,
        maximum := pmax.1, exclusiveMaximum := pmax.2 } ps it ao oo an

/-- convert30FormatsTo31ContentFields: for a solely string-typed schema with a
non-empty format, formats binary and byte set ContentMediaType "base64",
format base64 sets ContentEncoding "base64", and (in every such case, also
for unrecognized formats) the format field is cleared. -/
def convert30FormatsTo31ContentFields : Schema → Schema
  | .node d ps it ao oo an =>
    if d.type = ["string"] ∧ d.format ≠ "" then
      let d1 :=
        if d.format = "binary" ∨ d.format = "byte" then
          { d with contentMediaType := "base64" }
        else if d.format = "base64" then
          { d with contentEncoding := "base64" }
        else d
      .node { d1 with format := "" } ps it ao oo an
    else .node d ps it ao oo an

/-- updateSchemaAndReferencedSchema: nil schema is a no-op; otherwise the
callback is applied to each value of Properties, to the singular Items
schema, to each member of AllOf, OneOf and AnyOf, and finally to the schema
itself (exactly as the source does: the callback is invoked directly on each
direct child, with no recursive call). -/
def updateSchemaAndReferencedSchema (callback : Schema → Schema) :
    Option Schema → Option Schema
  | none => none
  | some (.node d ps it ao oo an) =>
    let ps1 := ps.map (fun p => (p.1, callback p.2))
    let it1 := it.map callback
    let ao1 := ao.map callback
    let oo1 := oo.map callback
    let an1 := an.map callback
    some (callback (.node d ps1 it1 ao1 oo1 an1))

/-! ### Helper lemmas about the type-array scan and the oneOf expansion -/

/-- Once the scan has seen "null", the first component stays true. -/
lemma typeScan_foldl_fst_true (l : List String) (s : String) :
    (l.foldl
      (fun acc value => if value = "null" then (true, acc.2) else (acc.1, value))
      (true, s)).1 = true := by
  induction l generalizing s with
  | nil => rfl
  | cons x xs ih => by_cases hx : x = "null" <;> simp [hx, ih]

/-- The first component of the scan records whether "null" occurs. -/
lemma typeScan_foldl_fst (l : List String) :
    ∀ b s, (l.foldl
      (fun acc value => if value = "null" then (true, acc.2) else (acc.1, value))
      (b, s)).1 = (b || decide ("null" ∈ l)) := by
  induction l with
  | nil => simp
  | cons x xs ih =>
    intro b s
    by_cases hx : x = "null"
    · subst hx
      simp [typeScan_foldl_fst_true]
    · simp [hx, ih, List.mem_cons, Ne.symm hx]

lemma typeScan_fst (l : List String) :
    (typeScan l).1 = decide ("null" ∈ l) := by
  simpa using typeScan_foldl_fst l false ""

/-- The oneOf-expansion loop keeps exactly the non-null entries, in order. -/
lemma filterMap_nullBranch (l : List String) (nb : Bool) :
    l.filterMap
        (fun value => if value = "null" then none else some (nullBranch value nb))
      = (l.filter (fun v => v ≠ "null")).map (fun v => nullBranch v nb) := by
  induction l with
  | nil => rfl
  | cons x xs ih => by_cases hx : x = "null" <;> simp [hx, ih]

/-- C2: the v2-to-v1 nullability downgrade: a 2-element type array made of
"null" and one other entry collapses to that entry with nullable true; a type
array with two or more non-null entries is cleared and replaced by a oneOf
with exactly one single-typed branch per non-null entry, each branch nullable
iff "null" was among the original entries; a type array with at most one
entry is left unchanged. -/
theorem C2_type_array_downgrade (s : Schema) :
    (∀ t, t ≠ "null" → (s.type = [t, "null"] ∨ s.type = ["null", t]) →
      (convert31TypeArraysTo30 s).type = [t] ∧
      (convert31TypeArraysTo30 s).nullable = some true) ∧
    (2 ≤ (s.type.filter (fun v => v ≠ "null")).length →
      (convert31TypeArraysTo30 s).type = [] ∧
      (convert31TypeArraysTo30 s).oneOf =
        (s.type.filter (fun v => v ≠ "null")).map
          (fun v => nullBranch v (decide ("null" ∈ s.type)))) ∧
    (s.type.length ≤ 1 → convert31TypeArraysTo30 s = s) := by
  cases s with
  | node d ps it ao oo an =>
    refine ⟨?_, ?_, ?_⟩
    · intro t ht hty
      simp only [Schema.type, Schema.data] at hty
      rcases hty with h | h <;>
        simp [convert31TypeArraysTo30, typeScan, h, ht,
          Schema.type, Schema.nullable, Schema.data]
    · intro h2
      simp only [Schema.type, Schema.data] at h2
      have hle : (d.type.filter (fun v => v ≠ "null")).length ≤ d.type.length :=
        List.length_filter_le _ _
      have hcond : ¬((typeScan d.type).1 ∧ d.type.length = 2) := by
        rintro ⟨hsc, hlen⟩
        rw [typeScan_fst] at hsc
        have hmem : "null" ∈ d.type := by simpa using hsc
        have hlt : (d.type.filter (fun v => v ≠ "null")).length < d.type.length :=
          List.length_filter_lt_length_iff_exists.mpr ⟨"null", hmem, by simp⟩
        omega
      have h2c : 2 ≤ d.type.length := by omega
      constructor
      · simp [convert31TypeArraysTo30, if_neg hcond, if_pos h2c,
          Schema.type, Schema.data]
      · simp only [convert31TypeArraysTo30, if_neg hcond, if_pos h2c,
          Schema.oneOf, Schema.type, Schema.data]
        simp only [typeScan_fst, filterMap_nullBranch]
    · intro h1
      simp only [Schema.type, Schema.data] at h1
      have hc1 : ¬((typeScan d.type).1 ∧ d.type.length = 2) := by
        rintro ⟨-, hlen⟩; omega
      have hc2 : ¬(2 ≤ d.type.length) := by omega
      simp only [convert31TypeArraysTo30, if_neg hc1, if_neg hc2]

def w2a : Schema :=
  .node { emptySchemaData with type := ["string", "null"] } [] none [] [] []

def w2b : Schema :=
  .node { emptySchemaData with type := ["integer", "string", "null"] } [] none [] [] []

def w2c : Schema :=
  .node { emptySchemaData with type := ["integer"] } [] none [] [] []

/-- Witness for C2 at concrete inputs covering all three cases. -/
theorem C2_witness :
    ((convert31TypeArraysTo30 w2a).type = ["string"] ∧
     (convert31TypeArraysTo30 w2a).nullable = some true) ∧
    ((convert31TypeArraysTo30 w2b).type = [] ∧
     (convert31TypeArraysTo30 w2b).oneOf =
       (w2b.type.filter (fun v => v ≠ "null")).map
         (fun v => nullBranch v (decide ("null" ∈ w2b.type)))) ∧
    (convert31TypeArraysTo30 w2c = w2c) :=
  ⟨(C2_type_array_downgrade w2a).1 "string" (by decide) (Or.inl (by decide)),
   (C2_type_array_downgrade w2b).2.1 (by decide),
   (C2_type_array_downgrade w2c).2.2 (by decide)⟩

/-! ### C3: nullability downgrade-then-upgrade round trip -/

def sC3 : Schema :=
  .node { emptySchemaData with type := ["null", "string"] } [] none [] [] []

/-- C3 counterexample: a fragment typed ["null", "string"] (with "null"
first) round trips to type ["string", "null"], so the original order of the
two type-array entries is not reproduced. -/
theorem C3_counterexample :
    sC3.type = ["null", "string"] ∧ sC3.nullable = none ∧
    (convert30NullablesTo31TypeArrays (convert31TypeArraysTo30 sC3)).type
      ≠ sC3.type := by
  refine ⟨rfl, rfl, ?_⟩
  decide

/-- C3 amended: for a fragment with a 2-element type array made of "null" and
one other primitive and an unset nullable flag, downgrade then upgrade
reproduces the nullable flag and the two type entries, always with the
non-null type first and "null" second; the original order is reproduced
exactly when "null" was the second entry. -/
theorem C3_amended_roundtrip (s : Schema) (t : String) (ht : t ≠ "null")
    (hn : s.nullable = none)
    (hty : s.type = [t, "null"] ∨ s.type = ["null", t]) :
    (convert30NullablesTo31TypeArrays (convert31TypeArraysTo30 s)).type
        = [t, "null"] ∧
    (convert30NullablesTo31TypeArrays (convert31TypeArraysTo30 s)).nullable
        = none := by
  cases s with
  | node d ps it ao oo an =>
    simp only [Schema.type, Schema.data] at hty
    rcases hty with h | h <;>
      simp [convert31TypeArraysTo30, convert30NullablesTo31TypeArrays, typeScan,
        h, ht, Schema.type, Schema.nullable, Schema.data]

def w3 : Schema :=
  .node { emptySchemaData with type := ["string", "null"] } [] none [] [] []

/-- Witness for the amended C3 at a concrete fragment. -/
theorem C3_witness :
    (convert30NullablesTo31TypeArrays (convert31TypeArraysTo30 w3)).type
        = ["string", "null"] ∧
    (convert30NullablesTo31TypeArrays (convert31TypeArraysTo30 w3)).nullable
        = none :=
  C3_amended_roundtrip w3 "string" (by decide) rfl (Or.inl rfl)

/-! ### C4: binary-encoding upgrade rule -/

def sC4 : Schema :=
  .node { emptySchemaData with type := ["string"], format := "date-time" }
    [] none [] [] []

/-- C4 counterexample: a string-typed fragment with format "date-time" (none
of binary, byte, base64) does not stay unchanged: its format hint is cleared
by the rule. -/
theorem C4_counterexample :
    sC4.type = ["string"] ∧ sC4.format = "date-time" ∧
    (convert30FormatsTo31ContentFields sC4).format ≠ sC4.format := by
  refine ⟨rfl, rfl, ?_⟩
  decide

/-- C4 amended: the rule applies only when the sole declared type is "string"
and a format hint is present: formats binary and byte set the content-media-
type marker "base64", format base64 sets the content-encoding marker
"base64", and the format hint is cleared in every applying case, including
unrecognized formats, which are dropped without setting any marker; fragments
outside the trigger condition are unchanged. -/
theorem C4_amended (s : Schema) :
    (¬(s.type = ["string"] ∧ s.format ≠ "") →
        convert30FormatsTo31ContentFields s = s) ∧
    (s.type = ["string"] → s.format ≠ "" →
      (convert30FormatsTo31ContentFields s).format = "" ∧
      ((s.format = "binary" ∨ s.format = "byte") →
        (convert30FormatsTo31ContentFields s).contentMediaType = "base64" ∧
        (convert30FormatsTo31ContentFields s).contentEncoding
          = s.contentEncoding) ∧
      (s.format = "base64" →
        (convert30FormatsTo31ContentFields s).contentEncoding = "base64" ∧
        (convert30FormatsTo31ContentFields s).contentMediaType
          = s.contentMediaType) ∧
      (¬(s.format = "binary" ∨ s.format = "byte" ∨ s.format = "base64") →
        (convert30FormatsTo31ContentFields s).contentMediaType
            = s.contentMediaType ∧
        (convert30FormatsTo31ContentFields s).contentEncoding
            = s.contentEncoding)) := by
  cases s with
  | node d ps it ao oo an =>
    simp only [Schema.type, Schema.format, Schema.contentMediaType,
      Schema.contentEncoding, Schema.data]
    constructor
    · intro h
      simp only [convert30FormatsTo31ContentFields, if_neg h]
    · intro h1 h2
      have hcond : d.type = ["string"] ∧ d.format ≠ "" := ⟨h1, h2⟩
      by_cases hb : d.format = "binary" ∨ d.format = "byte"
      · refine ⟨?_, fun _ => ⟨?_, ?_⟩, fun h64 => ?_, fun hno => ?_⟩
        · simp [convert30FormatsTo31ContentFields, if_pos hcond, if_pos hb,
            Schema.format, Schema.data]
        · simp [convert30FormatsTo31ContentFields, if_pos hcond, if_pos hb,
            Schema.contentMediaType, Schema.data]
        · simp [convert30FormatsTo31ContentFields, if_pos hcond, if_pos hb,
            Schema.contentEncoding, Schema.data]
        · exfalso
          rcases hb with hb | hb <;> rw [hb] at h64 <;>
            exact absurd h64 (by decide)
        · exfalso
          rcases hb with hb | hb
          · exact hno (Or.inl hb)
          · exact hno (Or.inr (Or.inl hb))
      · by_cases h64 : d.format = "base64"
        · refine ⟨?_, fun hb2 => absurd hb2 hb, fun _ => ⟨?_, ?_⟩,
            fun hno => absurd (Or.inr (Or.inr h64)) hno⟩ <;>
            simp [convert30FormatsTo31ContentFields, if_pos hcond, if_neg hb,
              if_pos h64, Schema.format, Schema.contentMediaType,
              Schema.contentEncoding, Schema.data]
        · refine ⟨?_, fun hb2 => absurd hb2 hb, fun h642 => absurd h642 h64,
            fun _ => ⟨?_, ?_⟩⟩ <;>
            simp [convert30FormatsTo31ContentFields, if_pos hcond, if_neg hb,
              if_neg h64, Schema.format, Schema.contentMediaType,
              Schema.contentEncoding, Schema.data]

def w4a : Schema :=
  .node { emptySchemaData with
      type := ["string"], format := "binary", contentEncoding := "enc" }
    [] none [] [] []

def w4b : Schema :=
  .node { emptySchemaData with type := ["integer"], format := "binary" }
    [] none [] [] []

/-- Witness for the amended C4 at concrete fragments. -/
theorem C4_witness :
    (convert30FormatsTo31ContentFields w4b = w4b) ∧
    (convert30FormatsTo31ContentFields w4a).format = "" ∧
    (convert30FormatsTo31ContentFields w4a).contentMediaType = "base64" ∧
    (convert30FormatsTo31ContentFields w4a).contentEncoding
      = w4a.contentEncoding :=
  ⟨(C4_amended w4b).1 (by decide),
   ((C4_amended w4a).2 (by decide) (by decide)).1,
   (((C4_amended w4a).2 (by decide) (by decide)).2.1 (Or.inl (by decide))).1,
   (((C4_amended w4a).2 (by decide) (by decide)).2.1 (Or.inl (by decide))).2⟩

/-! ### C7: numeric bound round trips -/

/-- The effective meaning of a (bound, exclusivity indicator) pair: the bound
value together with whether it is exclusive. A numeric-form indicator is
itself an exclusive bound; a boolean-form indicator qualifies the separate
bound field; an absent indicator means inclusive. -/
def effBound (bound : Option ℚ) (exclusiveBound : Option DynVal) :
    Option (ℚ × Bool) :=
  match exclusiveBound with
  | some ev =>
    if ev.N = 1 then some (ev.B, true)
    else
      match bound with
      | some v => some (v, ev.A)
      | none => none
  | none =>
    match bound with
    | some v => some (v, false)
    | none => none

/-- A fragment side carrying a numeric bound together with its exclusivity
indicator: either the v1 shape (separate bound value plus boolean-form
indicator) or the v2 shape (numeric-form indicator holding the bound, no
separate bound value). -/
def BoundCarrier (bound : Option ℚ) (exclusiveBound : Option DynVal) : Prop :=
  (∃ v ev, bound = some v ∧ exclusiveBound = some ev ∧ ev.N = 0) ∨
  (∃ ev, bound = none ∧ exclusiveBound = some ev ∧ ev.N = 1)

lemma effBound_up_down (b : Option ℚ) (e : Option DynVal) (h : BoundCarrier b e) :
    effBound
      (convert31ExclusiveBoundTo30 (convert30ExclusiveBoundTo31 b e).1
        (convert30ExclusiveBoundTo31 b e).2).1
      (convert31ExclusiveBoundTo30 (convert30ExclusiveBoundTo31 b e).1
        (convert30ExclusiveBoundTo31 b e).2).2
      = effBound b e := by
  rcases h with ⟨v, ev, hb, he, hN⟩ | ⟨ev, hb, he, hN⟩ <;> subst hb <;> subst he <;>
    obtain ⟨n, a, bb⟩ := ev <;> simp only at hN <;> subst hN
  · cases a <;>
      simp [convert30ExclusiveBoundTo31, convert31ExclusiveBoundTo30,
        effBound, DynVal.isA, DynVal.isB]
  · simp [convert30ExclusiveBoundTo31, convert31ExclusiveBoundTo30,
      effBound, DynVal.isA, DynVal.isB]

lemma effBound_down_up (b : Option ℚ) (e : Option DynVal) (h : BoundCarrier b e) :
    effBound
      (convert30ExclusiveBoundTo31 (convert31ExclusiveBoundTo30 b e).1
        (convert31ExclusiveBoundTo30 b e).2).1
      (convert30ExclusiveBoundTo31 (convert31ExclusiveBoundTo30 b e).1
        (convert31ExclusiveBoundTo30 b e).2).2
      = effBound b e := by
  rcases h with ⟨v, ev, hb, he, hN⟩ | ⟨ev, hb, he, hN⟩ <;> subst hb <;> subst he <;>
    obtain ⟨n, a, bb⟩ := ev <;> simp only at hN <;> subst hN
  · cases a <;>
      simp [convert30ExclusiveBoundTo31, convert31ExclusiveBoundTo30,
        effBound, DynVal.isA, DynVal.isB]
  · simp [convert30ExclusiveBoundTo31, convert31ExclusiveBoundTo30,
      effBound, DynVal.isA, DynVal.isB]

/-- C7: on every fragment, each side (minimum, maximum) that carries a bound
with its exclusivity indicator has its effective value and inclusive/exclusive
meaning preserved by upgrading then downgrading and by downgrading then
upgrading; the two sides are independent, so each conclusion needs only its
own side's carrier shape. -/
theorem C7_minmax_roundtrip (s : Schema) :
    (BoundCarrier s.minimum s.exclusiveMinimum →
      effBound (convert31MinMaxTo30 (convert30MinMaxTo31 s)).minimum
          (convert31MinMaxTo30 (convert30MinMaxTo31 s)).exclusiveMinimum
        = effBound s.minimum s.exclusiveMinimum ∧
      effBound (convert30MinMaxTo31 (convert31MinMaxTo30 s)).minimum
          (convert30MinMaxTo31 (convert31MinMaxTo30 s)).exclusiveMinimum
        = effBound s.minimum s.exclusiveMinimum) ∧
    (BoundCarrier s.maximum s.exclusiveMaximum →
      effBound (convert31MinMaxTo30 (convert30MinMaxTo31 s)).maximum
          (convert31MinMaxTo30 (convert30MinMaxTo31 s)).exclusiveMaximum
        = effBound s.maximum s.exclusiveMaximum ∧
      effBound (convert30MinMaxTo31 (convert31MinMaxTo30 s)).maximum
          (convert30MinMaxTo31 (convert31MinMaxTo30 s)).exclusiveMaximum
        = effBound s.maximum s.exclusiveMaximum) := by
  cases s with
  | node d ps it ao oo an =>
    simp only [Schema.minimum, Schema.maximum, Schema.exclusiveMinimum,
      Schema.exclusiveMaximum, Schema.data, convert30MinMaxTo31,
      convert31MinMaxTo30]
    exact ⟨fun hmin => ⟨effBound_up_down _ _ hmin, effBound_down_up _ _ hmin⟩,
      fun hmax => ⟨effBound_up_down _ _ hmax, effBound_down_up _ _ hmax⟩⟩

def w7min : Schema :=
  .node { emptySchemaData with
      minimum := some 5,
      exclusiveMinimum := some { N := 0, A := true, B := 0 } }
    [] none [] [] []

def w7max : Schema :=
  .node { emptySchemaData with
      exclusiveMaximum := some { N := 1, A := false, B := 10 } }
    [] none [] [] []

/-- Witness for C7: the minimum side of a fragment carrying only a minimum
with a boolean-form indicator, and the maximum side of a fragment carrying
only a numeric-form exclusive maximum. -/
theorem C7_witness :
    (effBound (convert31MinMaxTo30 (convert30MinMaxTo31 w7min)).minimum
        (convert31MinMaxTo30 (convert30MinMaxTo31 w7min)).exclusiveMinimum
      = effBound w7min.minimum w7min.exclusiveMinimum ∧
     effBound (convert30MinMaxTo31 (convert31MinMaxTo30 w7min)).minimum
        (convert30MinMaxTo31 (convert31MinMaxTo30 w7min)).exclusiveMinimum
      = effBound w7min.minimum w7min.exclusiveMinimum) ∧
    (effBound (convert31MinMaxTo30 (convert30MinMaxTo31 w7max)).maximum
        (convert31MinMaxTo30 (convert30MinMaxTo31 w7max)).exclusiveMaximum
      = effBound w7max.maximum w7max.exclusiveMaximum ∧
     effBound (convert30MinMaxTo31 (convert31MinMaxTo30 w7max)).maximum
        (convert30MinMaxTo31 (convert31MinMaxTo30 w7max)).exclusiveMaximum
      = effBound w7max.maximum w7max.exclusiveMaximum) :=
  ⟨(C7_minmax_roundtrip w7min).1
      (Or.inl ⟨5, { N := 0, A := true, B := 0 }, rfl, rfl, rfl⟩),
   (C7_minmax_roundtrip w7max).2
      (Or.inr ⟨{ N := 1, A := false, B := 10 }, rfl, rfl, rfl⟩)⟩

/-! ### C1: the schema tree visitor -/

def sC1grand : Schema :=
  .node { emptySchemaData with type := ["string"], nullable := some true }
    [] none [] [] []

def sC1child : Schema := .node emptySchemaData [("b", sC1grand)] none [] [] []

def sC1root : Schema := .node emptySchemaData [("a", sC1child)] none [] [] []

/-- C1 exhibit: running the visitor with the nullable-upgrade rule over a
three-level schema leaves the grandchild fragment untouched (its nullable
flag is still set and no "null" entry was added), because the visitor invokes
the callback only on the fragment itself and its direct children, with no
recursive descent; the rule, applied directly to the grandchild, would have
changed it. -/
theorem C1_visitor_misses_grandchild :
    ((updateSchemaAndReferencedSchema convert30NullablesTo31TypeArrays
        (some sC1root)).bind
      (fun r => (r.properties.lookup "a").bind
        (fun c => c.properties.lookup "b")))
      = some sC1grand ∧
    (convert30NullablesTo31TypeArrays sC1grand).nullable ≠ sC1grand.nullable ∧
    (convert30NullablesTo31TypeArrays sC1grand).type ≠ sC1grand.type :=
  ⟨rfl, by decide, by decide⟩

/-! ### The Swagger 2.0 document model used by the downgrade normalizer -/

/-- Mirrors kin-openapi openapi2.SchemaRef: either a pure reference or an
inline schema value (only the fields the injected definitions use are
modelled; the long documentation strings carried by the injected definitions
are not tracked, as no code path reads them). -/
inductive SchemaRef2 where
  | ref (r : String)
  | val (type : List String) (format : String)
      (properties : List (String × SchemaRef2)) (items : Option SchemaRef2)

/-- Mirrors openapi2.Response: a description and an optional schema. -/
structure Response2 where
  description : String
  schema : Option SchemaRef2

/-- Mirrors openapi2.Operation with the fields the normalizer touches. -/
structure Operation2 where
  tags : List String
  summary : String
  description : String
  operationID : String
  responses : Option (List (String × Response2))

/-- Mirrors openapi2.PathItem: the seven optional HTTP operations. -/
structure PathItem2 where
  delete : Option Operation2
  get : Option Operation2
  head : Option Operation2
  options : Option Operation2
  patch : Option Operation2
  post : Option Operation2
  put : Option Operation2

/-- Mirrors openapi2.T with the fields addDefaultErrorResponses touches.
Go maps are modelled as association lists with nil maps as none. -/
structure SwaggerDoc where
  definitions : Option (List (String × SchemaRef2))
  paths : List (String × PathItem2)

/-- Go string TrimPrefix. -/
def trimPfx (pre s : String) : String :=
  if pre.isPrefixOf s then s.drop pre.length else s

/-- strings.LastIndex based method-name extraction of copyDescriptionToSummary:
the substring after the last underscore when one exists and is not the final
byte, otherwise the whole identifier. -/
def afterLastUnderscore (s : String) : String :=
  let parts := s.splitOn "_"
  let lastPart := (parts.getLast?).getD ""
  if 2 ≤ parts.length ∧ lastPart ≠ "" then lastPart else s

/-- copyDescriptionToSummary on a non-nil operation: fill an empty summary
from a non-empty description, then append the gRPC note (first tag and
method-name fragment) to the description. -/
def copyDescriptionToSummaryOp (op : Operation2) : Operation2 :=
  let grpcClientName := op.tags.headD ""
  let methodName :=
    if op.operationID ≠ "" then afterLastUnderscore op.operationID else ""
  let parts : List String :=
    (if grpcClientName ≠ "" then ["gRPC客户端名称：" ++ grpcClientName] else [])
      ++ (if methodName ≠ "" then ["接口方法名称：" ++ methodName] else [])
  let grpcInfo :=
    if grpcClientName ≠ "" ∨ methodName ≠ "" then
      if 0 < parts.length then "\n\n" ++ String.intercalate "\n" parts else ""
    else ""
  let op1 :=
    if op.summary = "" ∧ op.description ≠ "" then
      { op with summary := op.description }
    else op
  if grpcInfo ≠ "" then
    if op1.description ≠ "" then
      { op1 with description := op1.description ++ grpcInfo }
    else { op1 with description := trimPfx "\n\n" grpcInfo }
  else op1

/-- copyDescriptionToSummary including the nil-operation no-op. -/
def copyDescriptionToSummary : Option Operation2 → Option Operation2 :=
  Option.map copyDescriptionToSummaryOp

/-- The loop of deduplicateTags: keep first occurrences in order. -/
def dedupTags (tags : List String) : List String :=
  tags.foldl (fun acc tag => if tag ∈ acc then acc else acc ++ [tag]) []

/-- deduplicateTags on a non-nil operation. -/
def deduplicateTagsOp (op : Operation2) : Operation2 :=
  if op.tags = [] then op else { op with tags := dedupTags op.tags }

/-- deduplicateTags including the nil-operation no-op. -/
def deduplicateTags : Option Operation2 → Option Operation2 :=
  Option.map deduplicateTagsOp

/-- Go map assignment on an association list with unique keys: replace the
matching entry, or append a new one. -/
def mapSet {α : Type} : List (String × α) → String → α → List (String × α)
  | [], k, v => [(k, v)]
  | p :: t, k, v => if p.1 == k then (k, v) :: t else p :: mapSet t k v

/-- The response installed by addDefaultErrorResponseToOperation. -/
def defaultErrorResponse : Response2 :=
  { description := "An unexpected error response.",
    schema := some (.ref "#/definitions/rpcStatus") }

/-- addDefaultErrorResponseToOperation on a non-nil operation: initialize the
responses map when nil and unconditionally set the "default" response. -/
def addDefaultErrorResponseToOperationOp (op : Operation2) : Operation2 :=
  let rs := op.responses.getD []
  { op with responses := some (mapSet rs "default" defaultErrorResponse) }

/-- addDefaultErrorResponseToOperation including the nil-operation no-op. -/
def addDefaultErrorResponseToOperation : Option Operation2 → Option Operation2 :=
  Option.map addDefaultErrorResponseToOperationOp

/-- The injected googleprotobufAny definition (structure only; the long
description strings are not modelled). -/
def googleprotobufAnyDef : SchemaRef2 :=
  .val ["object"] "" [("@type", .val ["string"] "" [] none)] none

/-- The injected rpcStatus definition: integer code, string message, and an
array of references to googleprotobufAny. -/
def rpcStatusDef : SchemaRef2 :=
  .val ["object"] ""
    [("code", .val ["integer"] "int32" [] none),
     ("message", .val ["string"] "" [] none),
     ("details", .val ["array"] "" [] (some (.ref "#/definitions/googleprotobufAny")))]
    none

/-- One pass over the seven operations of a path item. -/
def applyToAllOperations (f : Option Operation2 → Option Operation2)
    (it : PathItem2) : PathItem2 :=
  { delete := f it.delete, get := f it.get, head := f it.head,
    options := f it.options, patch := f it.patch, post := f it.post,
    put := f it.put }

/-- addDefaultErrorResponses: ensure the definitions map exists, add the two
global definitions only when absent, then for every path run the
copy-description pass, the tag-deduplication pass and the default-error-
response pass over all seven operations. -/
def addDefaultErrorResponses (doc : SwaggerDoc) : SwaggerDoc :=
  let defs := doc.definitions.getD []
  let defs :=
    if (defs.lookup "googleprotobufAny").isSome then defs
    else defs ++ [("googleprotobufAny", googleprotobufAnyDef)]
  let defs :=
    if (defs.lookup "rpcStatus").isSome then defs
    else defs ++ [("rpcStatus", rpcStatusDef)]
  { definitions := some defs,
    paths := doc.paths.map (fun pe =>
      (pe.1,
        applyToAllOperations addDefaultErrorResponseToOperation
          (applyToAllOperations deduplicateTags
            (applyToAllOperations copyDescriptionToSummary pe.2)))) }

/-- The operations present on a path item. -/
def opsOf (it : PathItem2) : List Operation2 :=
  [it.delete, it.get, it.head, it.options, it.patch, it.post, it.put].filterMap id

/-! ### C10: summary is filled before the description note is appended -/

/-- C10: when the summary is empty and the description non-empty, the summary
receives the description value as it was before the gRPC note is appended,
so the appended note never appears in the summary. -/
theorem C10_summary_filled_before_annotation (op : Operation2)
    (h1 : op.summary = "") (h2 : op.description ≠ "") :
    (copyDescriptionToSummaryOp op).summary = op.description := by
  have hc : op.summary = "" ∧ op.description ≠ "" := ⟨h1, h2⟩
  simp only [copyDescriptionToSummaryOp, if_pos hc]
  repeat' split
  all_goals rfl

def w10 : Operation2 :=
  { tags := ["UserService"], summary := "", description := "查询用户",
    operationID := "UserService_GetUser", responses := none }

/-- Witness for C10 at a concrete operation. -/
theorem C10_witness :
    (copyDescriptionToSummaryOp w10).summary = w10.description :=
  C10_summary_filled_before_annotation w10 rfl (by decide)

/-! ### C5: default error responses and injected definitions -/

lemma lookup_isSome_iff {α : Type} (l : List (String × α)) (k : String) :
    (l.lookup k).isSome ↔ k ∈ l.map Prod.fst := by
  induction l with
  | nil => simp [List.lookup]
  | cons p t ih =>
    obtain ⟨k1, v1⟩ := p
    by_cases hk : k = k1
    · subst hk
      simp [List.lookup]
    · have hb : (k == k1) = false := beq_eq_false_iff_ne.mpr hk
      simp [List.lookup, hb, ih, hk]

lemma lookup_mapSet_self {α : Type} (l : List (String × α)) (k : String) (v : α) :
    (mapSet l k v).lookup k = some v := by
  induction l with
  | nil => simp [mapSet, List.lookup]
  | cons p t ih =>
    by_cases hk : p.1 == k
    · simp [mapSet, hk, List.lookup]
    · simp only [mapSet, hk, Bool.false_eq_true, if_false]
      have hb : (k == p.1) = false := by
        rw [beq_eq_false_iff_ne]
        intro hkk
        subst hkk
        simp at hk
      simp [List.lookup, hb, ih]

lemma addDefault_lookup (op : Operation2) :
    ((addDefaultErrorResponseToOperationOp op).responses.getD []).lookup "default"
      = some defaultErrorResponse := by
  simp [addDefaultErrorResponseToOperationOp, lookup_mapSet_self]

lemma opsOf_apply (f : Option Operation2 → Option Operation2) (it : PathItem2)
    (op : Operation2) (h : op ∈ opsOf (applyToAllOperations f it)) :
    ∃ o : Option Operation2, f o = some op := by
  simp only [opsOf, applyToAllOperations, List.mem_filterMap, id_eq,
    List.mem_cons, List.not_mem_nil, or_false] at h
  obtain ⟨a, ha, rfl⟩ := h
  rcases ha with h | h | h | h | h | h | h <;> exact ⟨_, h.symm⟩

/-- C5: after the downgrade normalizer runs, the two injected global
definitions each occur exactly once among the definition keys (they are
created only when absent), and every operation present on any path has its
"default" response set to the injected response, whose schema is a reference
to "#/definitions/rpcStatus". -/
theorem C5_default_error_responses (doc : SwaggerDoc)
    (hnd : ((doc.definitions.getD []).map Prod.fst).Nodup) :
    ((((addDefaultErrorResponses doc).definitions.getD []).map Prod.fst).count
        "googleprotobufAny" = 1 ∧
     (((addDefaultErrorResponses doc).definitions.getD []).map Prod.fst).count
        "rpcStatus" = 1) ∧
    defaultErrorResponse.schema = some (.ref "#/definitions/rpcStatus") ∧
    ∀ pe ∈ (addDefaultErrorResponses doc).paths, ∀ op ∈ opsOf pe.2,
      (op.responses.getD []).lookup "default" = some defaultErrorResponse := by
  refine ⟨?_, rfl, ?_⟩
  · set d0 := doc.definitions.getD [] with hd0
    have hne : ("rpcStatus" : String) ∉ (["googleprotobufAny"] : List String) := by
      decide
    have hne2 : ("googleprotobufAny" : String) ≠ "rpcStatus" := by decide
    simp only [addDefaultErrorResponses, ← hd0, Option.getD_some]
    by_cases hA : (d0.lookup "googleprotobufAny").isSome
    · have hmemA : "googleprotobufAny" ∈ d0.map Prod.fst :=
        (lookup_isSome_iff _ _).mp hA
      simp only [if_pos hA]
      by_cases hR : (d0.lookup "rpcStatus").isSome
      · have hmemR : "rpcStatus" ∈ d0.map Prod.fst :=
          (lookup_isSome_iff _ _).mp hR
        simp only [if_pos hR]
        exact ⟨List.count_eq_one_of_mem hnd hmemA,
          List.count_eq_one_of_mem hnd hmemR⟩
      · have hmemR : "rpcStatus" ∉ d0.map Prod.fst := fun hm =>
          hR ((lookup_isSome_iff _ _).mpr hm)
        simp only [if_neg hR, List.map_append, List.count_append]
        constructor
        · have : (List.count "googleprotobufAny"
              ([("rpcStatus", rpcStatusDef)].map Prod.fst)) = 0 := by decide
          rw [this, List.count_eq_one_of_mem hnd hmemA]
        · have : (List.count "rpcStatus"
              ([("rpcStatus", rpcStatusDef)].map Prod.fst)) = 1 := by decide
          rw [this, List.count_eq_zero.mpr hmemR]
    · have hmemA : "googleprotobufAny" ∉ d0.map Prod.fst := fun hm =>
        hA ((lookup_isSome_iff _ _).mpr hm)
      simp only [if_neg hA]
      by_cases hR : ((d0 ++ [("googleprotobufAny", googleprotobufAnyDef)]).lookup
          "rpcStatus").isSome
      · have hmemR : "rpcStatus" ∈
            (d0 ++ [("googleprotobufAny", googleprotobufAnyDef)]).map Prod.fst :=
          (lookup_isSome_iff _ _).mp hR
        rw [List.map_append, List.mem_append] at hmemR
        have hmemR2 : "rpcStatus" ∈ d0.map Prod.fst := by
          rcases hmemR with h | h
          · exact h
          · exact absurd h hne
        simp only [if_pos hR, List.map_append, List.count_append]
        constructor
        · have h1 : (List.count "googleprotobufAny"
              ([("googleprotobufAny", googleprotobufAnyDef)].map Prod.fst)) = 1 := by
            decide
          rw [h1, List.count_eq_zero.mpr hmemA]
        · have h1 : (List.count "rpcStatus"
              ([("googleprotobufAny", googleprotobufAnyDef)].map Prod.fst)) = 0 := by
            decide
          rw [h1, List.count_eq_one_of_mem hnd hmemR2]
      · have hmemR : "rpcStatus" ∉
            (d0 ++ [("googleprotobufAny", googleprotobufAnyDef)]).map Prod.fst :=
          fun hm => hR ((lookup_isSome_iff _ _).mpr hm)
        rw [List.map_append] at hmemR
        have hmemR2 : "rpcStatus" ∉ d0.map Prod.fst := fun hm =>
          hmemR (List.mem_append.mpr (Or.inl hm))
        simp only [if_neg hR, List.map_append, List.count_append]
        constructor
        · have h1 : (List.count "googleprotobufAny"
              ([("googleprotobufAny", googleprotobufAnyDef)].map Prod.fst)) = 1 := by
            decide
          have h2 : (List.count "googleprotobufAny"
              ([("rpcStatus", rpcStatusDef)].map Prod.fst)) = 0 := by decide
          rw [h1, h2, List.count_eq_zero.mpr hmemA]
        · have h1 : (List.count "rpcStatus"
              ([("googleprotobufAny", googleprotobufAnyDef)].map Prod.fst)) = 0 := by
            decide
          have h2 : (List.count "rpcStatus"
              ([("rpcStatus", rpcStatusDef)].map Prod.fst)) = 1 := by decide
          rw [h1, h2, List.count_eq_zero.mpr hmemR2]
  · intro pe hpe op hop
    simp only [addDefaultErrorResponses, List.mem_map] at hpe
    obtain ⟨q, hq, rfl⟩ := hpe
    obtain ⟨o, ho⟩ := opsOf_apply _ _ _ hop
    simp only [addDefaultErrorResponseToOperation] at ho
    obtain ⟨x, hx1, hx2⟩ := Option.map_eq_some'.mp ho
    rw [← hx2]
    exact addDefault_lookup x

def w5get : Operation2 :=
  { tags := [], summary := "", description := "", operationID := "",
    responses := none }

def w5item : PathItem2 :=
  { delete := none, get := some w5get, head := none, options := none,
    patch := none, post := none, put := none }

def w5 : SwaggerDoc :=
  { definitions := none, paths := [("/x", w5item)] }

/-- Witness for C5 at a one-path document with a single get operation. -/
theorem C5_witness :
    ((((addDefaultErrorResponses w5).definitions.getD []).map Prod.fst).count
        "googleprotobufAny" = 1 ∧
     (((addDefaultErrorResponses w5).definitions.getD []).map Prod.fst).count
        "rpcStatus" = 1) ∧
    defaultErrorResponse.schema = some (.ref "#/definitions/rpcStatus") ∧
    ∀ pe ∈ (addDefaultErrorResponses w5).paths, ∀ op ∈ opsOf pe.2,
      (op.responses.getD []).lookup "default" = some defaultErrorResponse :=
  C5_default_error_responses w5 (by decide)

/-! ### The conversion orchestrator (convertDocument) -/

/-- The four single-step document conversions invoked by convertDocument.
Their bodies round-trip through external parsing libraries, so they enter
the model as opaque parameters; the orchestrator logic itself is embedded
below. -/
structure StepFns (δ : Type) where
  convertSwaggerToOpenAPI30 : δ → Except String δ
  convertOpenAPI30To31 : δ → Except String δ
  convertOpenAPI31To30 : δ → Except String δ
  convertOpenAPI30ToSwagger : δ → Except String δ

/-- The version-detection switch of convertDocument: the effective marker is
the openapi field, falling back to the swagger field when empty; unrecognized
markers produce the UnsupportedVersion error (the source misspells
"Unsuppoted", kept verbatim). -/
def detectVersion (openapi swagger : String) : Except String SpecVersion :=
  let marker := if openapi = "" then swagger else openapi
  if marker = "2.0" then .ok .swagger
  else if marker = "3.0.0" ∨ marker = "3.0.1" ∨ marker = "3.0.2" ∨
      marker = "3.0.3" ∨ marker = "3.0.4" then .ok .openAPI30
  else if marker = "3.1.0" ∨ marker = "3.1.1" then .ok .openAPI31
  else .error ("Unsuppoted input document OpenAPI version: " ++ marker)

/-- The stepping loop of convertDocument: while the current version differs
from the target, run exactly one adjacent conversion in the direction of the
target and continue from that step's statically-known output version. The
returned list is ghost instrumentation recording the (from, to) version pair
of each executed step. -/
def convertFrom {δ : Type} (fns : StepFns δ)
    (inputVersion outputVersion : SpecVersion) (data : δ) :
    Except String (δ × List (SpecVersion × SpecVersion)) :=
  if inputVersion = outputVersion then .ok (data, [])
  else if inputVersion.toNat < outputVersion.toNat then
    if inputVersion = .swagger then
      match fns.convertSwaggerToOpenAPI30 data with
      | .error e => .error e
      | .ok d =>
        match convertFrom fns .openAPI30 outputVersion d with
        | .error e => .error e
        | .ok (df, tr) =>
          .ok (df, (SpecVersion.swagger, SpecVersion.openAPI30) :: tr)
    else
      match fns.convertOpenAPI30To31 data with
      | .error e => .error e
      | .ok d =>
        match convertFrom fns .openAPI31 outputVersion d with
        | .error e => .error e
        | .ok (df, tr) => .ok (df, (inputVersion, SpecVersion.openAPI31) :: tr)
  else
    if inputVersion = .openAPI31 then
      match fns.convertOpenAPI31To30 data with
      | .error e => .error e
      | .ok d =>
        match convertFrom fns .openAPI30 outputVersion d with
        | .error e => .error e
        | .ok (df, tr) =>
          .ok (df, (SpecVersion.openAPI31, SpecVersion.openAPI30) :: tr)
    else
      match fns.convertOpenAPI30ToSwagger data with
      | .error e => .error e
      | .ok d =>
        match convertFrom fns .swagger outputVersion d with
        | .error e => .error e
        | .ok (df, tr) => .ok (df, (inputVersion, SpecVersion.swagger) :: tr)
termination_by
  (inputVersion.toNat - outputVersion.toNat)
    + (outputVersion.toNat - inputVersion.toNat)
decreasing_by
  all_goals
    cases inputVersion <;> cases outputVersion <;>
      simp_all [SpecVersion.toNat]

/-- convertDocument: extract the two marker fields (the parse step is a
parameter, with none modelling a yaml.Unmarshal failure), classify the
version, then run the stepping loop. -/
def convertDocument {δ : Type} (fns : StepFns δ)
    (parseBasicDoc : δ → Option (String × String)) (data : δ)
    (outputVersion : SpecVersion) :
    Except String (δ × List (SpecVersion × SpecVersion)) :=
  match parseBasicDoc data with
  | none => .error "Cannot parse Swagger or OpenAPI document"
  | some (openapi, swagger) =>
    match detectVersion openapi swagger with
    | .error e => .error e
    | .ok inputVersion => convertFrom fns inputVersion outputVersion data

lemma convertFrom_self {δ : Type} (fns : StepFns δ) (v : SpecVersion) (d : δ) :
    convertFrom fns v v d = .ok (d, []) := by
  unfold convertFrom
  simp

lemma convertFrom_sw_30 {δ : Type} (fns : StepFns δ) (d : δ) :
    convertFrom fns .swagger .openAPI30 d =
      match fns.convertSwaggerToOpenAPI30 d with
      | .error e => .error e
      | .ok d1 => .ok (d1, [(SpecVersion.swagger, SpecVersion.openAPI30)]) := by
  unfold convertFrom
  cases h : fns.convertSwaggerToOpenAPI30 d <;>
    simp [h, SpecVersion.toNat, convertFrom_self]

lemma convertFrom_30_31 {δ : Type} (fns : StepFns δ) (d : δ) :
    convertFrom fns .openAPI30 .openAPI31 d =
      match fns.convertOpenAPI30To31 d with
      | .error e => .error e
      | .ok d1 => .ok (d1, [(SpecVersion.openAPI30, SpecVersion.openAPI31)]) := by
  unfold convertFrom
  cases h : fns.convertOpenAPI30To31 d <;>
    simp [h, SpecVersion.toNat, convertFrom_self]

lemma convertFrom_31_30 {δ : Type} (fns : StepFns δ) (d : δ) :
    convertFrom fns .openAPI31 .openAPI30 d =
      match fns.convertOpenAPI31To30 d with
      | .error e => .error e
      | .ok d1 => .ok (d1, [(SpecVersion.openAPI31, SpecVersion.openAPI30)]) := by
  unfold convertFrom
  cases h : fns.convertOpenAPI31To30 d <;>
    simp [h, SpecVersion.toNat, convertFrom_self]

lemma convertFrom_30_sw {δ : Type} (fns : StepFns δ) (d : δ) :
    convertFrom fns .openAPI30 .swagger d =
      match fns.convertOpenAPI30ToSwagger d with
      | .error e => .error e
      | .ok d1 => .ok (d1, [(SpecVersion.openAPI30, SpecVersion.swagger)]) := by
  unfold convertFrom
  cases h : fns.convertOpenAPI30ToSwagger d <;>
    simp [h, SpecVersion.toNat, convertFrom_self]

lemma convertFrom_sw_31 {δ : Type} (fns : StepFns δ) (d : δ) :
    convertFrom fns .swagger .openAPI31 d =
      match fns.convertSwaggerToOpenAPI30 d with
      | .error e => .error e
      | .ok d1 =>
        match fns.convertOpenAPI30To31 d1 with
        | .error e => .error e
        | .ok d2 =>
          .ok (d2, [(SpecVersion.swagger, SpecVersion.openAPI30),
            (SpecVersion.openAPI30, SpecVersion.openAPI31)]) := by
  unfold convertFrom
  cases h : fns.convertSwaggerToOpenAPI30 d
  · simp [h, SpecVersion.toNat]
  · simp only [h, SpecVersion.toNat, convertFrom_30_31]
    cases h2 : fns.convertOpenAPI30To31 _ <;> simp [SpecVersion.toNat]

lemma convertFrom_31_sw {δ : Type} (fns : StepFns δ) (d : δ) :
    convertFrom fns .openAPI31 .swagger d =
      match fns.convertOpenAPI31To30 d with
      | .error e => .error e
      | .ok d1 =>
        match fns.convertOpenAPI30ToSwagger d1 with
        | .error e => .error e
        | .ok d2 =>
          .ok (d2, [(SpecVersion.openAPI31, SpecVersion.openAPI30),
            (SpecVersion.openAPI30, SpecVersion.swagger)]) := by
  unfold convertFrom
  cases h : fns.convertOpenAPI31To30 d
  · simp [h, SpecVersion.toNat]
  · simp only [h, SpecVersion.toNat, convertFrom_30_sw]
    cases h2 : fns.convertOpenAPI30ToSwagger _ <;> simp [SpecVersion.toNat]

/-- C6: when the detected version already equals the requested target, the
stepping loop body never runs: the result is ok with the document unchanged
and an empty step trace, for every choice of step functions. -/
theorem C6_identity {δ : Type} (fns : StepFns δ)
    (parseBasicDoc : δ → Option (String × String)) (data : δ)
    (oa sw : String) (v : SpecVersion)
    (hp : parseBasicDoc data = some (oa, sw))
    (hd : detectVersion oa sw = .ok v) :
    convertDocument fns parseBasicDoc data v = .ok (data, []) := by
  simp only [convertDocument, hp, hd]
  exact convertFrom_self fns v data

def fns0 : StepFns Nat :=
  { convertSwaggerToOpenAPI30 := fun d => .ok (d + 1),
    convertOpenAPI30To31 := fun d => .ok (d + 1),
    convertOpenAPI31To30 := fun d => .ok (d + 1),
    convertOpenAPI30ToSwagger := fun d => .ok (d + 1) }

def parse6 : Nat → Option (String × String) := fun _ => some ("3.0.1", "")

/-- Witness for C6: a document detected as 3.0 converted to target 3.0. -/
theorem C6_witness : convertDocument fns0 parse6 7 .openAPI30 = .ok (7, []) :=
  C6_identity fns0 parse6 7 "3.0.1" "" .openAPI30 rfl rfl

/-- C8: an effective version marker (openapi field, else swagger field) that
is none of the eight recognized strings makes convertDocument return the
UnsupportedVersion error naming that marker, and no converted document. -/
theorem C8_unsupported_version {δ : Type} (fns : StepFns δ)
    (parseBasicDoc : δ → Option (String × String)) (data : δ)
    (oa sw : String) (target : SpecVersion)
    (hp : parseBasicDoc data = some (oa, sw))
    (hm : (if oa = "" then sw else oa) ∉
      (["2.0", "3.0.0", "3.0.1", "3.0.2", "3.0.3", "3.0.4", "3.1.0",
        "3.1.1"] : List String)) :
    convertDocument fns parseBasicDoc data target =
      .error ("Unsuppoted input document OpenAPI version: "
        ++ (if oa = "" then sw else oa)) := by
  simp only [List.mem_cons, List.not_mem_nil, or_false, not_or] at hm
  obtain ⟨h1, h2, h3, h4, h5, h6, h7, h8⟩ := hm
  simp only [convertDocument, hp, detectVersion]
  rw [if_neg h1, if_neg (by tauto), if_neg (by tauto)]

def parse8 : Nat → Option (String × String) := fun _ => some ("1.2", "")

/-- Witness for C8 at the unrecognized marker "1.2". -/
theorem C8_witness :
    convertDocument fns0 parse8 0 .openAPI31 =
      .error ("Unsuppoted input document OpenAPI version: "
        ++ (if ("1.2" : String) = "" then "" else "1.2")) :=
  C8_unsupported_version fns0 parse8 0 "1.2" "" .openAPI31 rfl (by decide)

/-- The distance of two dialects in the fixed order v0 < v1 < v2. -/
def distV (a b : SpecVersion) : Nat :=
  (a.toNat - b.toNat) + (b.toNat - a.toNat)

/-- C9: every completed run of the stepping loop executes at most two steps,
and each recorded step moves between adjacent dialects, one position closer
to the target. -/
theorem C9_at_most_two_steps {δ : Type} (fns : StepFns δ)
    (i o : SpecVersion) (d df : δ) (tr : List (SpecVersion × SpecVersion))
    (h : convertFrom fns i o d = .ok (df, tr)) :
    tr.length ≤ 2 ∧
    ∀ p ∈ tr, distV p.1 p.2 = 1 ∧ distV p.2 o + 1 = distV p.1 o := by
  cases i <;> cases o
  case swagger.swagger =>
    rw [convertFrom_self] at h
    simp only [Except.ok.injEq, Prod.mk.injEq] at h
    obtain ⟨-, rfl⟩ := h
    decide
  case swagger.openAPI30 =>
    rw [convertFrom_sw_30] at h
    cases h1 : fns.convertSwaggerToOpenAPI30 d with
    | error e =>
      simp only [h1] at h
      exact Except.noConfusion h
    | ok d1 =>
      simp only [h1, Except.ok.injEq, Prod.mk.injEq] at h
      obtain ⟨-, rfl⟩ := h
      decide
  case swagger.openAPI31 =>
    rw [convertFrom_sw_31] at h
    cases h1 : fns.convertSwaggerToOpenAPI30 d with
    | error e =>
      simp only [h1] at h
      exact Except.noConfusion h
    | ok d1 =>
      simp only [h1] at h
      cases h2 : fns.convertOpenAPI30To31 d1 with
      | error e =>
        simp only [h2] at h
        exact Except.noConfusion h
      | ok d2 =>
        simp only [h2, Except.ok.injEq, Prod.mk.injEq] at h
        obtain ⟨-, rfl⟩ := h
        decide
  case openAPI30.swagger =>
    rw [convertFrom_30_sw] at h
    cases h1 : fns.convertOpenAPI30ToSwagger d with
    | error e =>
      simp only [h1] at h
      exact Except.noConfusion h
    | ok d1 =>
      simp only [h1, Except.ok.injEq, Prod.mk.injEq] at h
      obtain ⟨-, rfl⟩ := h
      decide
  case openAPI30.openAPI30 =>
    rw [convertFrom_self] at h
    simp only [Except.ok.injEq, Prod.mk.injEq] at h
    obtain ⟨-, rfl⟩ := h
    decide
  case openAPI30.openAPI31 =>
    rw [convertFrom_30_31] at h
    cases h1 : fns.convertOpenAPI30To31 d with
    | error e =>
      simp only [h1] at h
      exact Except.noConfusion h
    | ok d1 =>
      simp only [h1, Except.ok.injEq, Prod.mk.injEq] at h
      obtain ⟨-, rfl⟩ := h
      decide
  case openAPI31.swagger =>
    rw [convertFrom_31_sw] at h
    cases h1 : fns.convertOpenAPI31To30 d with
    | error e =>
      simp only [h1] at h
      exact Except.noConfusion h
    | ok d1 =>
      simp only [h1] at h
      cases h2 : fns.convertOpenAPI30ToSwagger d1 with
      | error e =>
        simp only [h2] at h
        exact Except.noConfusion h
      | ok d2 =>
        simp only [h2, Except.ok.injEq, Prod.mk.injEq] at h
        obtain ⟨-, rfl⟩ := h
        decide
  case openAPI31.openAPI30 =>
    rw [convertFrom_31_30] at h
    cases h1 : fns.convertOpenAPI31To30 d with
    | error e =>
      simp only [h1] at h
      exact Except.noConfusion h
    | ok d1 =>
      simp only [h1, Except.ok.injEq, Prod.mk.injEq] at h
      obtain ⟨-, rfl⟩ := h
      decide
  case openAPI31.openAPI31 =>
    rw [convertFrom_self] at h
    simp only [Except.ok.injEq, Prod.mk.injEq] at h
    obtain ⟨-, rfl⟩ := h
    decide

/-- Witness for C9: a full swagger-to-3.1 run takes exactly the two upgrade
steps. -/
theorem C9_witness :
    (([(SpecVersion.swagger, SpecVersion.openAPI30),
       (SpecVersion.openAPI30, SpecVersion.openAPI31)] :
        List (SpecVersion × SpecVersion)).length ≤ 2) ∧
    ∀ p ∈ ([(SpecVersion.swagger, SpecVersion.openAPI30),
       (SpecVersion.openAPI30, SpecVersion.openAPI31)] :
        List (SpecVersion × SpecVersion)),
      distV p.1 p.2 = 1 ∧
      distV p.2 SpecVersion.openAPI31 + 1 = distV p.1 SpecVersion.openAPI31 :=
  C9_at_most_two_steps fns0 .swagger .openAPI31 0 2
    [(.swagger, .openAPI30), (.openAPI30, .openAPI31)]
    (by rw [convertFrom_sw_31]; rfl)

end OASC
